import Mathlib

set_option maxRecDepth 8000

/-!
Verification of the Minol frame decoder (`src/devices/minol.c`).

The decoder's own logic (`minol_decode`) is embedded from the C source.
The helper primitives it calls (`bitbuffer_search`, `bitbuffer_extract_bytes`,
`crc16`) live elsewhere in the repository and are modelled from the spec.
A bit-stream row is a list of booleans, most significant bit first; bytes are
naturals below 256.
-/

namespace Minol

/-- A bit-stream row: ordered bits, most significant first, as handed in by the
demodulator. -/
abbrev BitRow := List Bool

/-- The capture buffer handed to the decoder: `num_rows` is `rows.length` and
`bits_per_row` of a row is its length. -/
structure Bitbuffer where
  rows : List BitRow
deriving DecidableEq

/-- The record emitted by `data_make` in minol.c: the three fields
"model", "raw" and "mic". -/
structure DataRecord where
  model : String
  raw : String
  mic : String
deriving DecidableEq

/-- Return values of `minol_decode`. `abortEarly` is `DECODE_ABORT_EARLY`,
returned both for a row count other than one (spec: MultiRowUnsupported) and
for a missing sync word (spec: NoSync); `abortLength` is
`DECODE_ABORT_LENGTH` (spec: TooShort); `failMic` is `DECODE_FAIL_MIC`
(spec: ChecksumMismatch); `success` carries the emitted record. -/
inductive DecodeResult where
  | abortEarly
  | abortLength
  | failMic
  | success (data : DataRecord)
deriving DecidableEq

/-- Modelled from the spec: one bit of a row read at bit offset `i`, as a 0/1
value; offsets beyond the row's end read as zero, since the capture buffer
(`bitbuffer.c`, not among the sources) is zero-filled before bits are added. -/
def bitVal (bits : BitRow) (i : Nat) : Nat :=
  if bits.getD i false then 1 else 0

/-- Modelled from the spec: one byte (8 bits, most significant first) of the
row read at bit offset `pos`, as `bitbuffer_extract_bytes` (not among the
sources) produces each output byte. -/
def byteAt (bits : BitRow) (pos : Nat) : Nat :=
  128 * bitVal bits pos + 64 * bitVal bits (pos + 1) + 32 * bitVal bits (pos + 2) +
    16 * bitVal bits (pos + 3) + 8 * bitVal bits (pos + 4) + 4 * bitVal bits (pos + 5) +
    2 * bitVal bits (pos + 6) + bitVal bits (pos + 7)

/-- Modelled from the spec: `bitbuffer_extract_bytes` (not among the sources),
extracting `n` bytes starting at an arbitrary bit offset `pos`. -/
def extractBytes (bits : BitRow) (pos n : Nat) : List Nat :=
  (List.range n).map (fun k => byteAt bits (pos + 8 * k))

/-- Whether the bit pattern `pat` occurs in `bits` at bit offset `p` (the
whole pattern must lie inside the row). -/
def sliceEq (bits pat : BitRow) (p : Nat) : Bool :=
  decide ((bits.drop p).take pat.length = pat)

/-- Modelled from the spec: `bitbuffer_search` (not among the sources) — the
smallest bit offset at which the pattern occurs in the row, scanning every
bit offset from 0, or the row's bit length as sentinel when the pattern does
not occur before the end of the row. -/
def bitbuffer_search (bits pat : BitRow) : Nat :=
  match (List.range bits.length).find? (fun p => sliceEq bits pat p) with
  | some p => p
  | none => bits.length

/-- Modelled from the spec: one shift step of the CRC-16 register
(most-significant-bit-first, 16-bit register, polynomial `poly`). -/
def crc16Bit (poly r : Nat) : Nat :=
  if 32768 ≤ r then Nat.xor (r * 2) poly % 65536 else r * 2 % 65536

/-- Modelled from the spec: folding one message byte into the CRC-16
register. -/
def crc16Byte (poly r b : Nat) : Nat :=
  (List.range 8).foldl (fun s _ => crc16Bit poly s) (Nat.xor r (b * 256) % 65536)

/-- Modelled from the spec: `crc16(message, nBytes, polynomial, init)` of the
repository's util.c (not among the sources) — CRC-16,
most-significant-bit-first, no final XOR. -/
def crc16 (msg : List Nat) (poly init : Nat) : Nat :=
  msg.foldl (crc16Byte poly) init

/-- The CC1101 PN9 whitening table, verbatim from minol.c. -/
def pn9 : List Nat := [
  0xff, 0xe1, 0x1d, 0x9a, 0xed, 0x85, 0x33, 0x24,
  0xea, 0x7a, 0xd2, 0x39, 0x70, 0x97, 0x57, 0x0a,
  0x54, 0x7d, 0x2d, 0xd8, 0x6d, 0x0d, 0xba, 0x8f,
  0x67, 0x59, 0xc7, 0xa2, 0xbf, 0x34, 0xca, 0x18,
  0x30, 0x53, 0x93, 0xdf, 0x92, 0xec, 0xa7, 0x15,
  0x8a, 0xdc, 0xf4, 0x86, 0x55, 0x4e, 0x18, 0x21,
  0x40, 0xc4, 0xc4, 0xd5, 0xc6, 0x91, 0x8a, 0xcd,
  0xe7, 0xd1, 0x4e, 0x09, 0x32, 0x17, 0xdf, 0x83,
  0xff, 0xf0, 0x0e, 0xcd, 0xf6, 0xc2, 0x19, 0x12,
  0x75, 0x3d, 0xe9, 0x1c, 0xb8, 0xcb, 0x2b, 0x05,
  0xaa, 0xbe, 0x16, 0xec, 0xb6, 0x06, 0xdd, 0xc7,
  0xb3, 0xac, 0x63, 0xd1, 0x5f, 0x1a, 0x65, 0x0c,
  0x98, 0xa9, 0xc9, 0x6f, 0x49, 0xf6, 0xd3, 0x0a,
  0x45, 0x6e, 0x7a, 0xc3, 0x2a, 0x27, 0x8c, 0x10,
  0x20, 0x62, 0xe2, 0x6a, 0xe3, 0x48, 0xc5, 0xe6,
  0xf3, 0x68, 0xa7, 0x04, 0x99, 0x8b, 0xef, 0xc1,
  0x7f, 0x78, 0x87, 0x66, 0x7b, 0xe1, 0x0c, 0x89,
  0xba, 0x9e, 0x74, 0x0e, 0xdc, 0xe5, 0x95, 0x02,
  0x55, 0x5f, 0x0b, 0x76, 0x5b, 0x83, 0xee, 0xe3,
  0x59, 0xd6, 0xb1, 0xe8, 0x2f, 0x8d, 0x32, 0x06,
  0xcc, 0xd4, 0xe4, 0xb7, 0x24, 0xfb, 0x69, 0x85,
  0x22, 0x37, 0xbd, 0x61, 0x95, 0x13, 0x46, 0x08,
  0x10, 0x31, 0x71, 0xb5, 0x71, 0xa4, 0x62, 0xf3,
  0x79, 0xb4, 0x53, 0x82, 0xcc, 0xc5, 0xf7, 0xe0,
  0x3f, 0xbc, 0x43, 0xb3, 0xbd, 0x70, 0x86, 0x44,
  0x5d, 0x4f, 0x3a, 0x07, 0xee, 0xf2, 0x4a, 0x81,
  0xaa, 0xaf, 0x05, 0xbb, 0xad, 0x41, 0xf7, 0xf1,
  0x2c, 0xeb, 0x58, 0xf4, 0x97, 0x46, 0x19, 0x03,
  0x66, 0x6a, 0xf2, 0x5b, 0x92, 0xfd, 0xb4, 0x42,
  0x91, 0x9b, 0xde, 0xb0, 0xca, 0x09, 0x23, 0x04,
  0x88, 0x98, 0xb8, 0xda, 0x38, 0x52, 0xb1, 0xf9,
  0x3c, 0xda, 0x29, 0x41, 0xe6, 0xe2, 0x7b, 0xf0
]

/-- The sync word bits of minol.c: bytes 0xd3 0x91 0xd3 0x91. -/
def byteBits (b : Nat) : List Bool :=
  [b / 128 % 2 == 1, b / 64 % 2 == 1, b / 32 % 2 == 1, b / 16 % 2 == 1,
   b / 8 % 2 == 1, b / 4 % 2 == 1, b / 2 % 2 == 1, b % 2 == 1]

/-- A byte list as a bit row, most significant bit of each byte first. -/
def bytesBits (bs : List Nat) : BitRow :=
  (bs.map byteBits).flatten

/-- The 32 sync word bits 0xd3 0x91 0xd3 0x91 (the `preamble` array of
minol.c). -/
def syncBits : BitRow :=
  bytesBits [0xd3, 0x91, 0xd3, 0x91]

/-- Writing the byte run `vs` into buffer `l` starting at index `i`
(C semantics of writing a contiguous run into a larger buffer). -/
def listWrite (l : List Nat) (i : Nat) (vs : List Nat) : List Nat :=
  l.take i ++ vs ++ l.drop (i + vs.length)

/-- The de-whitening loop of minol.c: for i from 0 to len-1 the byte at frame
index i+1 is XORed with pn9 entry i; equivalently the byte at frame index j
is XORed with pn9 entry j-1 exactly when 1 ≤ j ≤ len. `j` is the index of
the head of the remaining list. -/
def dewhitenFrom (len j : Nat) : List Nat → List Nat
  | [] => []
  | b :: rest =>
      (if 1 ≤ j ∧ j ≤ len then Nat.xor b (pn9.getD (j - 1) 0) else b) ::
        dewhitenFrom len (j + 1) rest

/-- The frame buffer after minol.c's de-whitening loop. -/
def dewhiten (len : Nat) (frame : List Nat) : List Nat :=
  dewhitenFrom len 0 frame

/-- One lowercase hexadecimal digit. -/
def hexDigit (n : Nat) : Char :=
  if n < 10 then Char.ofNat (48 + n) else Char.ofNat (87 + n)

/-- The `%02x` rendering of one byte: two lowercase hexadecimal characters. -/
def hexByte (b : Nat) : String :=
  String.mk [hexDigit (b / 16 % 16), hexDigit (b % 16)]

/-- The payload hex string built by minol.c: the bytes at frame indices
1 .. len rendered as two lowercase hex characters each, no separators. -/
def payloadHex (len : Nat) (frame : List Nat) : String :=
  String.join ((List.range len).map (fun i => hexByte (frame.getD (i + 1) 0)))

/-- The length byte of minol.c: one byte extracted right after the 32 sync
bits. -/
def minol_len (bits : BitRow) (start_pos : Nat) : Nat :=
  byteAt bits (start_pos + 32)

/-- The frame buffer of minol.c right after extraction: a 258-byte buffer
whose index 0 holds the length byte and whose remaining bytes are zero, into
which `bitbuffer_extract_bytes` writes len+2 bytes taken from bit offset
start_pos+40 — the write target in the source (line 68) is `frame`, i.e.
index 0, so the length byte slot is overwritten by the first extracted
byte. -/
def minol_frame_extracted (bits : BitRow) (start_pos : Nat) : List Nat :=
  listWrite (minol_len bits start_pos :: List.replicate 257 0) 0
    (extractBytes bits (start_pos + 40) (minol_len bits start_pos + 2))

/-- The frame buffer of minol.c after the de-whitening loop. -/
def minol_frame (bits : BitRow) (start_pos : Nat) : List Nat :=
  dewhiten (minol_len bits start_pos) (minol_frame_extracted bits start_pos)

/-- minol.c `minol_decode` on a single row of bits: everything after the
row-count check — sync search, 56-bit minimum check, length byte, extraction,
de-whitening, checksum comparison, record construction. -/
def minol_decode_row (bits : BitRow) : DecodeResult :=
  let start_pos := bitbuffer_search bits syncBits
  if start_pos = bits.length then DecodeResult.abortEarly
  else if bits.length < 56 then DecodeResult.abortLength
  else
    let len := minol_len bits start_pos
    let frame := minol_frame bits start_pos
    let crc_calc := crc16 (frame.take (len + 1)) 0x8005 0xffff
    let crc_recv := frame.getD (len + 1) 0 * 256 + frame.getD (len + 2) 0
    if crc_recv ≠ crc_calc then DecodeResult.failMic
    else DecodeResult.success ⟨"Minol", payloadHex len frame, "CRC"⟩

/-- minol.c `minol_decode`: reject with `DECODE_ABORT_EARLY` unless the
capture has exactly one row, then decode that row. -/
def minol_decode (bb : Bitbuffer) : DecodeResult :=
  match bb.rows with
  | [bits] => minol_decode_row bits
  | _ => DecodeResult.abortEarly

/-- From the spec: whitening a payload — each byte XORed with the whitening
table entry at its own index. -/
def specWhiten (P : List Nat) : List Nat :=
  (List.range P.length).map (fun i => Nat.xor (P.getD i 0) (pn9.getD i 0))

/-- From the spec (the frame construction of the round-trip property): the
sync word, the length byte, the whitened payload, and the big-endian CRC-16
of the length byte followed by the raw payload. -/
def specEncode (P : List Nat) : BitRow :=
  bytesBits ([0xd3, 0x91, 0xd3, 0x91] ++ [P.length] ++ specWhiten P ++
    [crc16 (P.length :: P) 0x8005 0xffff / 256,
     crc16 (P.length :: P) 0x8005 0xffff % 256])

/-- From the spec: the payload hex the spec prescribes — the first len bytes
following the length byte, each XORed with the whitening table entry at its
own index, rendered as lowercase hex. -/
def spec_payload_hex (bits : BitRow) (start_pos : Nat) : String :=
  String.join ((List.range (minol_len bits start_pos)).map
    (fun i => hexByte (Nat.xor (byteAt bits (start_pos + 40 + 8 * i)) (pn9.getD i 0))))

/-- A single bit read is 0 or 1. -/
theorem bitVal_le_one (bits : BitRow) (i : Nat) : bitVal bits i ≤ 1 := by
  unfold bitVal
  split <;> omega

/-- An extracted byte is below 256. -/
theorem byteAt_lt_256 (bits : BitRow) (pos : Nat) : byteAt bits pos < 256 := by
  unfold byteAt
  have h0 := bitVal_le_one bits pos
  have h1 := bitVal_le_one bits (pos + 1)
  have h2 := bitVal_le_one bits (pos + 2)
  have h3 := bitVal_le_one bits (pos + 3)
  have h4 := bitVal_le_one bits (pos + 4)
  have h5 := bitVal_le_one bits (pos + 5)
  have h6 := bitVal_le_one bits (pos + 6)
  have h7 := bitVal_le_one bits (pos + 7)
  omega

/-- Extraction of n bytes yields n bytes. -/
theorem extractBytes_length (bits : BitRow) (pos n : Nat) :
    (extractBytes bits pos n).length = n := by
  unfold extractBytes
  simp

/-- The de-whitening loop keeps the buffer size. -/
theorem dewhitenFrom_length (len : Nat) (l : List Nat) :
    ∀ j, (dewhitenFrom len j l).length = l.length := by
  induction l with
  | nil => intro j; rfl
  | cons b rest ih => intro j; simp [dewhitenFrom, ih]

/-- The frame buffer still has 258 bytes after extraction. -/
theorem minol_frame_extracted_length (bits : BitRow) (s : Nat) :
    (minol_frame_extracted bits s).length = 258 := by
  have h := byteAt_lt_256 bits (s + 32)
  unfold minol_frame_extracted listWrite minol_len
  simp [extractBytes_length]
  omega

/-- The frame buffer still has 258 bytes after de-whitening. -/
theorem minol_frame_length (bits : BitRow) (s : Nat) :
    (minol_frame bits s).length = 258 := by
  unfold minol_frame dewhiten
  rw [dewhitenFrom_length]
  exact minol_frame_extracted_length bits s

/-- A 56-bit row: sync word, length byte 5, then 16 zero bits — too short for
the declared 5 payload bytes (it would need 96 bits). -/
def c1_bits : BitRow := bytesBits [0xd3, 0x91, 0xd3, 0x91, 0x05] ++ List.replicate 16 false

/-- Claim C1: refuted behaviour on the code — the source has no second length
check after the length byte is known: on a 56-bit row declaring length 5
(which needs 96 bits) the decoder does not return the length-abort (TooShort)
code; it extracts the missing bytes (reading past the row end as zeros) and
fails the checksum comparison instead. -/
theorem C1_no_second_length_check :
    minol_decode ⟨[c1_bits]⟩ = DecodeResult.failMic ∧
      DecodeResult.failMic ≠ DecodeResult.abortLength ∧
      c1_bits.length = 56 ∧ minol_len c1_bits 0 = 5 ∧
      c1_bits.length < 32 + 8 + minol_len c1_bits 0 * 8 + 16 := by decide

/-- Claim C2: refuted round-trip on the code — for the empty payload the frame
built exactly as the claim prescribes (sync word, length 0, big-endian CRC-16
of the byte 0) does not decode to a success: the extraction in minol.c lands
at frame index 0 instead of 1, so the checksum comparison fails. -/
theorem C2_roundtrip_fails_empty :
    minol_decode ⟨[specEncode []]⟩ = DecodeResult.failMic := by decide

/-- The spec-built frame for payload 0x00. -/
def c3_bits : BitRow := specEncode [0x00]

/-- Claim C3: refuted equivalence on the code — on this frame the CRC-16 over
the length byte and the de-whitened payload equals the received big-endian
checksum (the claim's success condition holds), yet the decoder returns the
checksum-failure code instead of succeeding. -/
theorem C3_checksum_iff_fails :
    crc16 [minol_len c3_bits 0, Nat.xor (byteAt c3_bits 40) (pn9.getD 0 0)] 0x8005 0xffff =
      byteAt c3_bits 48 * 256 + byteAt c3_bits 56 ∧
    minol_decode ⟨[c3_bits]⟩ = DecodeResult.failMic := by decide

/-- The spec-built frame for payload 0xab. -/
def c4_bits : BitRow := specEncode [0xab]

/-- Claim C4: refuted on the code — de-whitening does not leave the checksum
bytes unchanged: on this length-1 frame the loop XORs the byte at frame
index 1, which holds the first received checksum byte (0x85, the byte at bit
offset 48), turning it into 0x7a, while the whitened payload byte at frame
index 0 is left untouched. -/
theorem C4_dewhiten_touches_checksum :
    byteAt c4_bits 48 = 0x85 ∧
    (minol_frame_extracted c4_bits 0).getD 1 0 = 0x85 ∧
    (minol_frame c4_bits 0).getD 1 0 = 0x7a ∧
    (0x7a : Nat) ≠ 0x85 ∧
    (minol_frame c4_bits 0).getD 0 0 = (minol_frame_extracted c4_bits 0).getD 0 0 := by decide

/-- Claim C5: a single-row stream with no occurrence of the sync word at any
bit offset is rejected with the early-abort code (the code's NoSync signal),
which is distinct from the length-abort (TooShort) code. -/
theorem C5_no_sync (bits : BitRow)
    (h : ∀ p < bits.length, sliceEq bits syncBits p = false) :
    minol_decode ⟨[bits]⟩ = DecodeResult.abortEarly ∧
      DecodeResult.abortEarly ≠ DecodeResult.abortLength := by
  refine ⟨?_, by decide⟩
  have hnone : (List.range bits.length).find? (fun p => sliceEq bits syncBits p) = none := by
    apply List.find?_eq_none.mpr
    intro x hx
    rw [List.mem_range] at hx
    simp [h x hx]
  have hsearch : bitbuffer_search bits syncBits = bits.length := by
    unfold bitbuffer_search
    rw [hnone]
  show minol_decode_row bits = DecodeResult.abortEarly
  unfold minol_decode_row
  simp [hsearch]

/-- An all-zero 40-bit row: the sync word occurs nowhere. -/
def c5_bits : BitRow := List.replicate 40 false

/-- Claim C5 witness at the all-zero 40-bit row. -/
theorem C5_no_sync_witness :
    minol_decode ⟨[c5_bits]⟩ = DecodeResult.abortEarly ∧
      DecodeResult.abortEarly ≠ DecodeResult.abortLength :=
  C5_no_sync c5_bits (by decide)

/-- Claim C6 counterexample: the all-zero 55-bit row does not contain the sync
word, so the decoder rejects it with the early-abort (NoSync) code — not the
length-abort (TooShort) code the claim predicts for every 55-bit row: the
sync search runs before the length check. -/
theorem C6_counterexample :
    minol_decode ⟨[List.replicate 55 false]⟩ = DecodeResult.abortEarly ∧
      DecodeResult.abortEarly ≠ DecodeResult.abortLength := by decide

/-- Claim C6 (amended): every 55-bit single-row stream in which the sync word
is found fails with the length-abort (TooShort) code; the function returns at
the fixed minimum-length check, before any byte extraction. -/
theorem C6_sync_found_tooshort (bits : BitRow) (h55 : bits.length = 55)
    (hsync : bitbuffer_search bits syncBits ≠ bits.length) :
    minol_decode ⟨[bits]⟩ = DecodeResult.abortLength := by
  rw [h55] at hsync
  show minol_decode_row bits = DecodeResult.abortLength
  unfold minol_decode_row
  simp [hsync, h55]

/-- A 55-bit row starting with the sync word, then 23 zero bits. -/
def c6_bits : BitRow := syncBits ++ List.replicate 23 false

/-- Claim C6 (amended) witness: the sync word followed by 23 zero bits. -/
theorem C6_sync_found_tooshort_witness :
    c6_bits.length = 55 ∧ bitbuffer_search c6_bits syncBits ≠ c6_bits.length ∧
      minol_decode ⟨[c6_bits]⟩ = DecodeResult.abortLength :=
  ⟨by decide, by decide, C6_sync_found_tooshort c6_bits (by decide) (by decide)⟩

/-- The spec-built frame for payload 0x11. -/
def c7_bits : BitRow := specEncode [0x11]

/-- Claim C7 counterexample: the extraction does not start at frame index 1 —
on this frame the byte at index 0 of the buffer after extraction is the first
whitened payload byte 0xee (0x11 XOR 0xff), not the length byte 1: the write
run starts at index 0, overwriting the length byte slot. -/
theorem C7_extraction_at_index_zero :
    minol_len c7_bits 0 = 1 ∧
      (minol_frame_extracted c7_bits 0).getD 0 0 = 0xee ∧
      (0xee : Nat) ≠ 1 := by decide

/-- Claim C7 (amended): every write stays within the declared buffers: the
length byte is below 256; the 258-byte frame buffer keeps its size through
extraction (which starts at index 0, not index 1) and through de-whitening;
and each hex-rendering write (two characters plus the terminator at character
index 2*i+2) stays below the 512-byte hex buffer. -/
theorem C7_writes_in_bounds (bits : BitRow) (start_pos : Nat) :
    minol_len bits start_pos < 256 ∧
    (minol_frame_extracted bits start_pos).length = 258 ∧
    (minol_frame bits start_pos).length = 258 ∧
    ∀ i < minol_len bits start_pos, 2 * i + 2 < 512 := by
  have h : minol_len bits start_pos < 256 := byteAt_lt_256 bits (start_pos + 32)
  exact ⟨h, minol_frame_extracted_length bits start_pos,
    minol_frame_length bits start_pos, fun i hi => by omega⟩

/-- A frame that passes the buggy checksum comparison: sync word, length 1,
then the bytes 0x00 0x02 0x02. -/
def c8_bits : BitRow := bytesBits [0xd3, 0x91, 0xd3, 0x91, 0x01, 0x00, 0x02, 0x02]

/-- Claim C8: refuted on the code — this frame passes the checksum comparison
and yields the three-field record with model "Minol" and mic "CRC", but its
raw field is "fd" (frame index 1, the received byte 0x02 XOR pn9 entry 0)
while the de-whitened payload prescribed by the spec is 0x00 XOR 0xff = 0xff,
i.e. the hex string "ff". -/
theorem C8_raw_not_dewhitened_payload :
    minol_decode ⟨[c8_bits]⟩ = DecodeResult.success ⟨"Minol", "fd", "CRC"⟩ ∧
      spec_payload_hex c8_bits 0 = "ff" ∧
      ("fd" : String) ≠ "ff" := by decide

/-- Claim C9: a capture with more than one row is rejected with the
early-abort code, whatever the rows hold. -/
theorem C9_multi_row (bb : Bitbuffer) (h : 1 < bb.rows.length) :
    minol_decode bb = DecodeResult.abortEarly := by
  obtain ⟨rows⟩ := bb
  cases rows with
  | nil => rfl
  | cons x rest =>
    cases rest with
    | nil => exact absurd h (Nat.lt_irrefl 1)
    | cons y t => rfl

/-- Claim C9 witness: a two-row capture. -/
theorem C9_multi_row_witness :
    minol_decode ⟨[[], []]⟩ = DecodeResult.abortEarly :=
  C9_multi_row ⟨[[], []]⟩ (by decide)

/-- Claim C10: a capture with zero rows is rejected with the same early-abort
code as the multi-row case — the row-count check admits exactly one row. -/
theorem C10_zero_rows (bb : Bitbuffer) (h : bb.rows.length = 0) :
    minol_decode bb = DecodeResult.abortEarly ∧
      minol_decode ⟨[[], []]⟩ = DecodeResult.abortEarly := by
  refine ⟨?_, rfl⟩
  obtain ⟨rows⟩ := bb
  cases rows with
  | nil => rfl
  | cons x rest => exact absurd h (Nat.succ_ne_zero rest.length)

/-- Claim C10 witness: the empty capture. -/
theorem C10_zero_rows_witness :
    minol_decode ⟨([] : List BitRow)⟩ = DecodeResult.abortEarly ∧
      minol_decode ⟨[[], []]⟩ = DecodeResult.abortEarly :=
  C10_zero_rows ⟨[]⟩ (by decide)

end Minol
